import Mathlib

/-!
Shallow embedding of the `DatabaseStream` text-stream abstraction
(`db_stream.py`) together with its SQLite backing-store adapter
(`sqlite_db_stream.py`).

The backing table is a list of records; `id` is assigned by the store from a
monotone counter (SQLite rowid).  Timestamps are modelled as `Nat`.  The
Python exceptions `ValueError` ("I/O operation on closed stream", the spec's
`ClosedStreamError`) and `io.UnsupportedOperation` (the spec's
`UnsupportedOperationError`) become an error type returned through `Except`.
Stateful methods become functions from the combined (stream, table) state to
`Except` of result and new state.
-/

namespace DBS

/-- One row of the backing table: `id`, `content`, and the nullable
consumption/provenance columns `session_ts`, `hostname`, `pid`. -/
structure Record where
  id : Nat
  content : String
  session_ts : Option Nat
  hostname : Option String
  pid : Option Nat
deriving DecidableEq, Repr

/-- The backing table: the stored rows plus the store's id counter
(SQLite's monotonically increasing rowid assignment). -/
structure Table where
  rows : List Record
  nextId : Nat
deriving DecidableEq, Repr

/-- A fetched row as seen by the reader cursor: `SELECT id, content`. -/
structure Row where
  id : Nat
  content : String
deriving DecidableEq, Repr

/-- `SqliteDatabaseStream._write_record`: INSERT of
`(content, session_ts, hostname, pid)`; the store assigns the next id and
the insert commits immediately. -/
def insertRecord (t : Table) (content : String) (ts : Nat) (host : String)
    (p : Nat) : Table :=
  { rows := t.rows ++ [⟨t.nextId, content, some ts, some host, some p⟩],
    nextId := t.nextId + 1 }

/-- The effect on one record of the consumption UPDATE:
set `session_ts`, `hostname`, `pid`; `id` and `content` untouched. -/
def stampRecord (ts : Nat) (host : String) (p : Nat) (r : Record) : Record :=
  { r with session_ts := some ts, hostname := some host, pid := some p }

/-- `SqliteDatabaseStream._mark_consumed`: UPDATE setting
`session_ts`, `hostname`, `pid` on every row matching `rowId`. -/
def markConsumed (t : Table) (rowId : Nat) (ts : Nat) (host : String)
    (p : Nat) : Table :=
  { t with rows := t.rows.map (fun r =>
      if r.id = rowId then stampRecord ts host p r else r) }

/-- `SqliteDatabaseStream._fetch_unconsumed`:
`SELECT id, content FROM t WHERE session_ts IS NULL ORDER BY id`. -/
def fetchUnconsumed (t : Table) : List Row :=
  (((t.rows.filter (fun r => r.session_ts = none)).map
      (fun r => ⟨r.id, r.content⟩ : Record → Row))).mergeSort
    (fun a b => a.id ≤ b.id)

/-- `DatabaseStream` instance state: construction arguments, the session
triple frozen at construction, the closed flag, the adapter connection
(open/released), and the forward-only row iterator of a reader. -/
structure DBStream where
  table_name : String
  mode : String
  session_ts : Nat
  hostname : String
  pid : Nat
  closed : Bool
  conn_open : Bool
  row_iterator : List Row
deriving DecidableEq, Repr

/-- `DatabaseStream.readable`: mode is `'r'` and not closed. -/
def DBStream.readable (s : DBStream) : Bool :=
  (s.mode == "r") && !s.closed

/-- `DatabaseStream.writable`: mode is `'w'` and not closed. -/
def DBStream.writable (s : DBStream) : Bool :=
  (s.mode == "w") && !s.closed

/-- Combined state: the stream object and the backing table it talks to. -/
structure SState where
  stream : DBStream
  table : Table
deriving DecidableEq, Repr

/-- The spec's error taxonomy as surfaced by stream operations:
`closedStream` is Python's `ValueError("I/O operation on closed stream.")`,
`unsupportedOp` is `io.UnsupportedOperation`. -/
inductive StreamError where
  | closedStream
  | unsupportedOp
deriving DecidableEq, Repr

/-- `DatabaseStream.__init__`: record construction arguments and the frozen
session triple, connect, and — when readable — fetch the unconsumed rows
once and keep an iterator over them. -/
def mkStream (t : Table) (tname mode : String) (ts : Nat) (host : String)
    (p : Nat) : SState :=
  let base : DBStream :=
    { table_name := tname, mode := mode, session_ts := ts, hostname := host,
      pid := p, closed := false, conn_open := true, row_iterator := [] }
  let s := if base.readable then
      { base with row_iterator := fetchUnconsumed t } else base
  { stream := s, table := t }

/-- `DatabaseStream.write`: closed check, writable check, then one
`_write_record` insert of the whole argument string with the stream's
session triple. -/
def write (st : SState) (s : String) : Except StreamError SState :=
  if st.stream.closed then .error .closedStream
  else if !st.stream.writable then .error .unsupportedOp
  else .ok { st with
    table := insertRecord st.table s st.stream.session_ts st.stream.hostname
      st.stream.pid }

/-- `DatabaseStream.flush`: closed check, then `_flush` (a commit; writes
are already durable, so no observable table change). -/
def flush (st : SState) : Except StreamError SState :=
  if st.stream.closed then .error .closedStream
  else .ok st

/-- The shared consumption loop of `read` (with `size`) and `readlines`
(with `hint`): pop rows, accumulating `total` characters, stopping after a
row once `0 ≤ bound ∧ bound ≤ total`; with a negative bound it drains
everything.  Returns the consumed prefix and the remaining iterator. -/
def consumeUntil (bound : Int) : List Row → Nat → List Row × List Row
  | [], _ => ([], [])
  | r :: rest, total =>
    let tot := total + r.content.length
    if 0 ≤ bound ∧ bound ≤ (tot : Int) then ([r], rest)
    else
      let pr := consumeUntil bound rest tot
      (r :: pr.1, pr.2)

/-- Mark a list of fetched rows consumed, in order (one UPDATE per row,
exactly as the read loop issues them). -/
def markRows (t : Table) (rs : List Row) (ts : Nat) (host : String)
    (p : Nat) : Table :=
  rs.foldl (fun acc r => markConsumed acc r.id ts host p) t

/-- Concatenation of the contents of a list of rows (`"".join`). -/
def joinContents (rs : List Row) : String :=
  String.join (rs.map (fun r => r.content))

/-- `DatabaseStream.read`: closed check, readable check, then consume rows
from the iterator (marking each consumed) until `size` characters are
accumulated (all of them when `size < 0`) and return the concatenation. -/
def read (st : SState) (size : Int) : Except StreamError (String × SState) :=
  if st.stream.closed then .error .closedStream
  else if !st.stream.readable then .error .unsupportedOp
  else
    let pr := consumeUntil size st.stream.row_iterator 0
    .ok (joinContents pr.1,
      { stream := { st.stream with row_iterator := pr.2 },
        table := markRows st.table pr.1 st.stream.session_ts
          st.stream.hostname st.stream.pid })

/-- `DatabaseStream.readline`: closed check, readable check, then consume a
single row (empty string when exhausted), mark it consumed, and return its
content truncated to `limit` characters when `limit ≥ 0`. -/
def readline (st : SState) (limit : Int) :
    Except StreamError (String × SState) :=
  if st.stream.closed then .error .closedStream
  else if !st.stream.readable then .error .unsupportedOp
  else
    match st.stream.row_iterator with
    | [] => .ok ("", st)
    | r :: rest =>
      let res := if 0 ≤ limit then r.content.take limit.toNat else r.content
      .ok (res,
        { stream := { st.stream with row_iterator := rest },
          table := markConsumed st.table r.id st.stream.session_ts
            st.stream.hostname st.stream.pid })

/-- `DatabaseStream.readlines`: closed check, readable check, then consume
rows (marking each consumed) until the accumulated length reaches `hint`
(all of them when `hint < 0`), returning the list of full contents. -/
def readlines (st : SState) (hint : Int) :
    Except StreamError (List String × SState) :=
  if st.stream.closed then .error .closedStream
  else if !st.stream.readable then .error .unsupportedOp
  else
    let pr := consumeUntil hint st.stream.row_iterator 0
    .ok (pr.1.map (fun r => r.content),
      { stream := { st.stream with row_iterator := pr.2 },
        table := markRows st.table pr.1 st.stream.session_ts
          st.stream.hostname st.stream.pid })

/-- `DatabaseStream.__iter__`: only a readable check (no separate closed
check), returning the stream itself. -/
def iterStream (st : SState) : Except StreamError SState :=
  if !st.stream.readable then .error .unsupportedOp
  else .ok st

/-- `DatabaseStream.__next__`: closed check, readable check, then consume a
single row, marking it consumed; `none` models `StopIteration`. -/
def iterNext (st : SState) : Except StreamError (Option String × SState) :=
  if st.stream.closed then .error .closedStream
  else if !st.stream.readable then .error .unsupportedOp
  else
    match st.stream.row_iterator with
    | [] => .ok (none, st)
    | r :: rest =>
      .ok (some r.content,
        { stream := { st.stream with row_iterator := rest },
          table := markConsumed st.table r.id st.stream.session_ts
            st.stream.hostname st.stream.pid })

/-- One read-style operation of the public interface, with its argument. -/
inductive ReadOp where
  | opRead (size : Int)
  | opReadline (limit : Int)
  | opReadlines (hint : Int)
  | opNext
deriving DecidableEq, Repr

/-- Run one read-style operation, also reporting the list of fetched rows
it consumed from the iterator. -/
def applyOp (st : SState) : ReadOp → Except StreamError (SState × List Row)
  | .opRead size =>
    (read st size).map (fun x =>
      (x.2, (consumeUntil size st.stream.row_iterator 0).1))
  | .opReadline limit =>
    (readline st limit).map (fun x => (x.2, st.stream.row_iterator.take 1))
  | .opReadlines hint =>
    (readlines st hint).map (fun x =>
      (x.2, (consumeUntil hint st.stream.row_iterator 0).1))
  | .opNext =>
    (iterNext st).map (fun x => (x.2, st.stream.row_iterator.take 1))

/-- Run a sequence of read-style operations, concatenating the rows each
one consumed. -/
def runOps : List ReadOp → SState → Except StreamError (SState × List Row)
  | [], st => .ok (st, [])
  | op :: ops, st =>
    match applyOp st op with
    | .error e => .error e
    | .ok x =>
      match runOps ops x.1 with
      | .error e => .error e
      | .ok y => .ok (y.1, x.2 ++ y.2)

/-- An event during a reader's lifetime: one of its own read operations, or
an insert into the backing table performed by some other connection
(arbitrary column values, the store assigning the next id). -/
inductive Event where
  | evOp (o : ReadOp)
  | evInsert (content : String) (sess : Option Nat) (host : Option String)
      (p : Option Nat)
deriving DecidableEq, Repr

/-- Apply one event to the combined state. -/
def applyEvent (st : SState) : Event → Except StreamError (SState × List Row)
  | .evOp o => applyOp st o
  | .evInsert c sess h p =>
    .ok ({ st with table :=
      { rows := st.table.rows ++ [⟨st.table.nextId, c, sess, h, p⟩],
        nextId := st.table.nextId + 1 } }, [])

/-- Run a sequence of events, concatenating the rows the reader consumed. -/
def runEvents : List Event → SState → Except StreamError (SState × List Row)
  | [], st => .ok (st, [])
  | e :: es, st =>
    match applyEvent st e with
    | .error e => .error e
    | .ok x =>
      match runEvents es x.1 with
      | .error e => .error e
      | .ok y => .ok (y.1, x.2 ++ y.2)

/-- The reader state after one call of the shared consumption loop:
iterator advanced past the consumed prefix, each consumed row marked in the
table (the post-state of `read size` and of `readlines hint`). -/
def afterConsume (st : SState) (bound : Int) : SState :=
  { stream := { st.stream with
      row_iterator := (consumeUntil bound st.stream.row_iterator 0).2 },
    table := markRows st.table
      (consumeUntil bound st.stream.row_iterator 0).1
      st.stream.session_ts st.stream.hostname st.stream.pid }

/-- The reader state after consuming the single row `r`, leaving `rest`
(the post-state of `readline` and `__next__` on a non-empty iterator). -/
def afterOne (st : SState) (r : Row) (rest : List Row) : SState :=
  { stream := { st.stream with row_iterator := rest },
    table := markConsumed st.table r.id st.stream.session_ts
      st.stream.hostname st.stream.pid }

/-- Total number of characters in a list of fetched rows (`total_chars`). -/
def sumLen (rs : List Row) : Nat :=
  (rs.map (fun r => r.content.length)).sum

/-- The stream is an open reader: not closed and constructed with `'r'`. -/
def isOpenReader (st : SState) : Prop :=
  st.stream.closed = false ∧ st.stream.mode = "r"

/-- The assignment `self._closed = True` performed first inside `close`. -/
def setClosed (s : DBStream) : DBStream := { s with closed := true }

/-- `SqliteDatabaseStream._db_close`: release cursor and connection. -/
def dbClose (s : DBStream) : DBStream := { s with conn_open := false }

/-- `DatabaseStream.close`: no-op when already closed; otherwise set the
closed flag first, then invoke the adapter's release hook `_db_close`. -/
def close (st : SState) : SState :=
  if st.stream.closed then st
  else { st with stream := dbClose (setClosed st.stream) }

/-! ### Concrete fixtures used to exercise the theorems -/

/-- A table holding two unconsumed records, ids 1 and 2. -/
def tableAB : Table :=
  { rows := [⟨1, "Input1\n", none, none, none⟩,
             ⟨2, "Input2\n", none, none, none⟩],
    nextId := 3 }

/-- A table holding one unconsumed record with content "Hello World". -/
def tableHW : Table :=
  { rows := [⟨1, "Hello World", none, none, none⟩], nextId := 2 }

/-- A reader stream freshly opened over `tableHW`. -/
def readerHW : SState := mkStream tableHW "t" "r" 5 "host" 42

/-- A reader stream freshly opened over `tableAB`. -/
def readerAB : SState := mkStream tableAB "t" "r" 7 "host" 43

/-- A writer stream freshly opened over an empty table. -/
def writerEmpty : SState := mkStream { rows := [], nextId := 1 } "t" "w" 9 "wh" 44

/-- The reader over `tableAB` after `close()`. -/
def closedReader : SState := close readerAB

/-- The writer after `close()`. -/
def closedWriter : SState := close writerEmpty

/-! ### Helper lemmas -/

theorem sumLen_nil : sumLen [] = 0 := rfl

theorem sumLen_cons (r : Row) (rs : List Row) :
    sumLen (r :: rs) = r.content.length + sumLen rs := by
  simp [sumLen]

theorem consumeUntil_nil (bound : Int) (total : Nat) :
    consumeUntil bound [] total = ([], []) := rfl

theorem consumeUntil_cons_stop (bound : Int) (r : Row) (rest : List Row)
    (total : Nat)
    (h : 0 ≤ bound ∧ bound ≤ ((total + r.content.length : Nat) : Int)) :
    consumeUntil bound (r :: rest) total = ([r], rest) := by
  simp only [consumeUntil]
  rw [if_pos h]

theorem consumeUntil_cons_go (bound : Int) (r : Row) (rest : List Row)
    (total : Nat)
    (h : ¬(0 ≤ bound ∧ bound ≤ ((total + r.content.length : Nat) : Int))) :
    consumeUntil bound (r :: rest) total =
      (r :: (consumeUntil bound rest (total + r.content.length)).1,
       (consumeUntil bound rest (total + r.content.length)).2) := by
  simp only [consumeUntil]
  rw [if_neg h]

theorem consumeUntil_append (bound : Int) :
    ∀ (c : List Row) (total : Nat),
      (consumeUntil bound c total).1 ++ (consumeUntil bound c total).2 = c := by
  intro c
  induction c with
  | nil => intro total; simp [consumeUntil_nil]
  | cons r rest ih =>
    intro total
    by_cases h : 0 ≤ bound ∧ bound ≤ ((total + r.content.length : Nat) : Int)
    · rw [consumeUntil_cons_stop bound r rest total h]
      simp
    · rw [consumeUntil_cons_go bound r rest total h]
      simp [ih]

theorem consumeUntil_neg (bound : Int) (hb : bound < 0) :
    ∀ (c : List Row) (total : Nat), consumeUntil bound c total = (c, []) := by
  intro c
  induction c with
  | nil => intro total; simp [consumeUntil_nil]
  | cons r rest ih =>
    intro total
    have h : ¬(0 ≤ bound ∧ bound ≤ ((total + r.content.length : Nat) : Int)) := by
      intro hcon
      omega
    rw [consumeUntil_cons_go bound r rest total h, ih]

theorem consumeUntil_stop_spec (bound : Int) (hb : 0 ≤ bound) :
    ∀ (c : List Row) (total : Nat),
      ((consumeUntil bound c total).2 = [] ∨
        bound ≤ ((total + sumLen (consumeUntil bound c total).1 : Nat) : Int)) ∧
      (∀ q, q <+: (consumeUntil bound c total).1 →
        q ≠ (consumeUntil bound c total).1 → q ≠ [] →
        ((total + sumLen q : Nat) : Int) < bound) := by
  intro c
  induction c with
  | nil =>
    intro total
    refine ⟨Or.inl rfl, ?_⟩
    intro q hq hne hnil
    rw [consumeUntil_nil] at hq
    simp at hq
    exact absurd hq hnil
  | cons r rest ih =>
    intro total
    by_cases h : 0 ≤ bound ∧ bound ≤ ((total + r.content.length : Nat) : Int)
    · rw [consumeUntil_cons_stop bound r rest total h]
      constructor
      · right
        have h2 := h.2
        rw [sumLen_cons, sumLen_nil]
        push_cast at h2 ⊢
        omega
      · intro q hq hne hnil
        have hlen1 : 1 ≤ q.length := by
          cases q with
          | nil => exact absurd rfl hnil
          | cons a as => simp
        have : q = [r] := hq.eq_of_length (by
          have := hq.length_le
          simp at this ⊢
          omega)
        exact absurd this hne
    · have hlt : ((total + r.content.length : Nat) : Int) < bound := by omega
      rw [consumeUntil_cons_go bound r rest total h]
      constructor
      · rcases (ih (total + r.content.length)).1 with h2 | h2
        · exact Or.inl h2
        · right
          rw [sumLen_cons]
          push_cast at h2 ⊢
          omega
      · intro q hq hne hnil
        cases q with
        | nil => exact absurd rfl hnil
        | cons a as =>
          rw [List.cons_prefix_cons] at hq
          obtain ⟨heq, has⟩ := hq
          subst heq
          by_cases hasnil : as = []
          · subst hasnil
            rw [sumLen_cons, sumLen_nil]
            push_cast at hlt ⊢
            omega
          · have hne2 : as ≠ (consumeUntil bound rest (total + a.content.length)).1 := by
              intro hcon
              apply hne
              rw [hcon]
            have h3 := (ih (total + a.content.length)).2 as has hne2 hasnil
            rw [sumLen_cons]
            push_cast at h3 ⊢
            omega

theorem stampRecord_idem (ts : Nat) (host : String) (p : Nat) (r : Record) :
    stampRecord ts host p (stampRecord ts host p r) = stampRecord ts host p r :=
  rfl

theorem stampRecord_id (ts : Nat) (host : String) (p : Nat) (r : Record) :
    (stampRecord ts host p r).id = r.id := rfl

theorem markRows_nil (t : Table) (ts : Nat) (host : String) (p : Nat) :
    markRows t [] ts host p = t := rfl

theorem markRows_cons (t : Table) (r : Row) (rs : List Row) (ts : Nat)
    (host : String) (p : Nat) :
    markRows t (r :: rs) ts host p
      = markRows (markConsumed t r.id ts host p) rs ts host p := rfl

theorem markRows_append (t : Table) (rs1 rs2 : List Row) (ts : Nat)
    (host : String) (p : Nat) :
    markRows t (rs1 ++ rs2) ts host p
      = markRows (markRows t rs1 ts host p) rs2 ts host p := by
  simp [markRows, List.foldl_append]

theorem markRows_rows (ts : Nat) (host : String) (p : Nat) :
    ∀ (rs : List Row) (t : Table),
      (markRows t rs ts host p).rows
        = t.rows.map (fun rec =>
            if (rs.map Row.id).contains rec.id then stampRecord ts host p rec
            else rec) := by
  intro rs
  induction rs with
  | nil =>
    intro t
    simp [markRows_nil]
  | cons r rs ih =>
    intro t
    rw [markRows_cons, ih]
    show (t.rows.map fun rec =>
        if rec.id = r.id then stampRecord ts host p rec else rec).map _ = _
    rw [List.map_map]
    apply List.map_congr_left
    intro rec _
    by_cases hid : rec.id = r.id
    · simp [Function.comp, hid, stampRecord]
    · simp only [Function.comp_apply, if_neg hid]
      have : ((r :: rs).map Row.id).contains rec.id
          = (rs.map Row.id).contains rec.id := by
        simp [List.contains_cons, hid]
      rw [this]

theorem markRows_nextId (ts : Nat) (host : String) (p : Nat) :
    ∀ (rs : List Row) (t : Table),
      (markRows t rs ts host p).nextId = t.nextId := by
  intro rs
  induction rs with
  | nil => intro t; rfl
  | cons r rs ih =>
    intro t
    rw [markRows_cons, ih]
    rfl

theorem markRows_idContent (t : Table) (rs : List Row) (ts : Nat)
    (host : String) (p : Nat) :
    (markRows t rs ts host p).rows.map (fun rec => (rec.id, rec.content))
      = t.rows.map (fun rec => (rec.id, rec.content)) := by
  rw [markRows_rows, List.map_map]
  apply List.map_congr_left
  intro rec _
  simp only [Function.comp_apply]
  by_cases hid : (rs.map Row.id).contains rec.id
  · rw [if_pos hid]
    rfl
  · rw [if_neg hid]

theorem markRows_mem_stamped (t : Table) (rs : List Row) (ts : Nat)
    (host : String) (p : Nat) (rec : Record) (hrec : rec ∈ t.rows)
    (hid : rec.id ∈ rs.map Row.id) :
    stampRecord ts host p rec ∈ (markRows t rs ts host p).rows := by
  rw [markRows_rows]
  have hc : (rs.map Row.id).contains rec.id := List.elem_eq_true_of_mem hid
  refine List.mem_map.mpr ⟨rec, hrec, ?_⟩
  exact if_pos hc

theorem fetchUnconsumed_perm (t : Table) :
    (fetchUnconsumed t).Perm
      ((t.rows.filter (fun r => r.session_ts = none)).map
        (fun r => ⟨r.id, r.content⟩)) :=
  List.mergeSort_perm _ _

theorem mem_fetchUnconsumed (t : Table) (r : Row) :
    r ∈ fetchUnconsumed t ↔
      ∃ rec ∈ t.rows, rec.session_ts = none ∧ r = ⟨rec.id, rec.content⟩ := by
  rw [(fetchUnconsumed_perm t).mem_iff]
  simp only [List.mem_map, List.mem_filter, decide_eq_true_eq]
  constructor
  · rintro ⟨rec, ⟨hmem, hsess⟩, heq⟩
    exact ⟨rec, hmem, hsess, heq.symm⟩
  · rintro ⟨rec, hmem, hsess, heq⟩
    exact ⟨rec, ⟨hmem, hsess⟩, heq.symm⟩

theorem fetchUnconsumed_sorted (t : Table) :
    (fetchUnconsumed t).Pairwise (fun a b => a.id ≤ b.id) := by
  have h := @List.sorted_mergeSort Row (fun a b => decide (a.id ≤ b.id))
    (fun a b c hab hbc => by
      simp only [decide_eq_true_eq] at hab hbc ⊢
      omega)
    (fun a b => by
      simp only [Bool.or_eq_true, decide_eq_true_eq]
      omega)
    ((t.rows.filter (fun r => r.session_ts = none)).map
      (fun r => ⟨r.id, r.content⟩))
  refine h.imp ?_
  intro a b hab
  simpa using hab

theorem fetchUnconsumed_nodup_ids (t : Table)
    (hnd : (t.rows.map Record.id).Nodup) :
    ((fetchUnconsumed t).map Row.id).Nodup := by
  have hperm : ((fetchUnconsumed t).map Row.id).Perm
      (((t.rows.filter (fun r => r.session_ts = none)).map
        (fun r => (⟨r.id, r.content⟩ : Row))).map Row.id) :=
    (fetchUnconsumed_perm t).map Row.id
  have hsub : ((t.rows.filter (fun r => r.session_ts = none)).map
      Record.id).Sublist (t.rows.map Record.id) :=
    (List.filter_sublist _).map Record.id
  have hnd2 : ((t.rows.filter (fun r => r.session_ts = none)).map
      Record.id).Nodup := hnd.sublist hsub
  rw [List.map_map] at hperm
  exact (hperm.nodup_iff).mpr hnd2

theorem fetchUnconsumed_strict_sorted (t : Table)
    (hnd : (t.rows.map Record.id).Nodup) :
    (fetchUnconsumed t).Pairwise (fun a b => a.id < b.id) := by
  have h1 := fetchUnconsumed_sorted t
  have h2 : (fetchUnconsumed t).Pairwise (fun a b => a.id ≠ b.id) := by
    have := fetchUnconsumed_nodup_ids t hnd
    rw [List.Nodup, List.pairwise_map] at this
    exact this
  exact (h1.and h2).imp (fun hab => by omega)

theorem readable_true (st : SState) (h : isOpenReader st) :
    st.stream.readable = true := by
  obtain ⟨hc, hm⟩ := h
  simp [DBStream.readable, hm, hc]

theorem applyOp_spec (st : SState) (op : ReadOp) (h : isOpenReader st) :
    ∃ st2 d, applyOp st op = .ok (st2, d) ∧
      d ++ st2.stream.row_iterator = st.stream.row_iterator ∧
      st2.table = markRows st.table d st.stream.session_ts st.stream.hostname
        st.stream.pid ∧
      st2.stream.mode = st.stream.mode ∧
      st2.stream.closed = st.stream.closed ∧
      st2.stream.session_ts = st.stream.session_ts ∧
      st2.stream.hostname = st.stream.hostname ∧
      st2.stream.pid = st.stream.pid := by
  have hc := h.1
  have hr := readable_true st h
  cases op with
  | opRead size =>
    refine ⟨afterConsume st size,
      (consumeUntil size st.stream.row_iterator 0).1,
      ?_, consumeUntil_append size st.stream.row_iterator 0,
      rfl, rfl, rfl, rfl, rfl, rfl⟩
    simp [applyOp, read, afterConsume, Except.map, hc, hr]
  | opReadline limit =>
    cases hcur : st.stream.row_iterator with
    | nil =>
      refine ⟨st, [], ?_, by simp [hcur], (markRows_nil _ _ _ _).symm,
        rfl, rfl, rfl, rfl, rfl⟩
      simp [applyOp, readline, Except.map, hc, hr, hcur]
    | cons r rest =>
      refine ⟨afterOne st r rest, [r], ?_, by simp [afterOne, hcur],
        rfl, rfl, rfl, rfl, rfl, rfl⟩
      simp [applyOp, readline, afterOne, Except.map, hc, hr, hcur]
  | opReadlines hint =>
    refine ⟨afterConsume st hint,
      (consumeUntil hint st.stream.row_iterator 0).1,
      ?_, consumeUntil_append hint st.stream.row_iterator 0,
      rfl, rfl, rfl, rfl, rfl, rfl⟩
    simp [applyOp, readlines, afterConsume, Except.map, hc, hr]
  | opNext =>
    cases hcur : st.stream.row_iterator with
    | nil =>
      refine ⟨st, [], ?_, by simp [hcur], (markRows_nil _ _ _ _).symm,
        rfl, rfl, rfl, rfl, rfl⟩
      simp [applyOp, iterNext, Except.map, hc, hr, hcur]
    | cons r rest =>
      refine ⟨afterOne st r rest, [r], ?_, by simp [afterOne, hcur],
        rfl, rfl, rfl, rfl, rfl, rfl⟩
      simp [applyOp, iterNext, afterOne, Except.map, hc, hr, hcur]

theorem runOps_spec (ops : List ReadOp) :
    ∀ (st : SState), isOpenReader st →
      ∃ st2 d, runOps ops st = .ok (st2, d) ∧
        d ++ st2.stream.row_iterator = st.stream.row_iterator ∧
        st2.table = markRows st.table d st.stream.session_ts
          st.stream.hostname st.stream.pid ∧
        st2.stream.mode = st.stream.mode ∧
        st2.stream.closed = st.stream.closed ∧
        st2.stream.session_ts = st.stream.session_ts ∧
        st2.stream.hostname = st.stream.hostname ∧
        st2.stream.pid = st.stream.pid := by
  induction ops with
  | nil =>
    intro st h
    exact ⟨st, [], rfl, rfl, (markRows_nil _ _ _ _).symm, rfl, rfl, rfl, rfl,
      rfl⟩
  | cons op ops ih =>
    intro st h
    obtain ⟨st1, d1, he1, hcur1, htab1, hm1, hc1, hs1, hh1, hp1⟩ :=
      applyOp_spec st op h
    have h1 : isOpenReader st1 :=
      ⟨by rw [hc1]; exact h.1, by rw [hm1]; exact h.2⟩
    obtain ⟨st2, d2, he2, hcur2, htab2, hm2, hc2, hs2, hh2, hp2⟩ := ih st1 h1
    refine ⟨st2, d1 ++ d2, ?_, ?_, ?_, by rw [hm2, hm1], by rw [hc2, hc1],
      by rw [hs2, hs1], by rw [hh2, hh1], by rw [hp2, hp1]⟩
    · simp [runOps, he1, he2]
    · rw [List.append_assoc, hcur2, hcur1]
    · rw [markRows_append, ← htab1, htab2, hs1, hh1, hp1]

theorem runEvents_spec (es : List Event) :
    ∀ (st : SState), isOpenReader st →
      ∃ st2 d, runEvents es st = .ok (st2, d) ∧
        d ++ st2.stream.row_iterator = st.stream.row_iterator ∧
        st2.stream.mode = st.stream.mode ∧
        st2.stream.closed = st.stream.closed := by
  induction es with
  | nil =>
    intro st h
    exact ⟨st, [], rfl, rfl, rfl, rfl⟩
  | cons e es ih =>
    intro st h
    cases e with
    | evOp o =>
      obtain ⟨st1, d1, he1, hcur1, _, hm1, hc1, _, _, _⟩ := applyOp_spec st o h
      have h1 : isOpenReader st1 :=
        ⟨by rw [hc1]; exact h.1, by rw [hm1]; exact h.2⟩
      obtain ⟨st2, d2, he2, hcur2, hm2, hc2⟩ := ih st1 h1
      refine ⟨st2, d1 ++ d2, ?_, ?_, by rw [hm2, hm1], by rw [hc2, hc1]⟩
      · simp [runEvents, applyEvent, he1, he2]
      · rw [List.append_assoc, hcur2, hcur1]
    | evInsert c sess hst pd =>
      have h1 : isOpenReader { st with table :=
          { rows := st.table.rows ++ [⟨st.table.nextId, c, sess, hst, pd⟩],
            nextId := st.table.nextId + 1 } } := h
      obtain ⟨st2, d2, he2, hcur2, hm2, hc2⟩ := ih _ h1
      refine ⟨st2, [] ++ d2, ?_, by simpa using hcur2, hm2, hc2⟩
      simp [runEvents, applyEvent, he2]

theorem closed_ops_error (st : SState) (hcl : st.stream.closed = true) :
    (∀ s, write st s = .error .closedStream) ∧
    flush st = .error .closedStream ∧
    (∀ size, read st size = .error .closedStream) ∧
    (∀ limit, readline st limit = .error .closedStream) ∧
    (∀ hint, readlines st hint = .error .closedStream) ∧
    iterNext st = .error .closedStream ∧
    iterStream st = .error .unsupportedOp := by
  refine ⟨fun s => ?_, ?_, fun size => ?_, fun limit => ?_, fun hint => ?_,
    ?_, ?_⟩ <;>
  simp [write, flush, read, readline, readlines, iterNext, iterStream,
    DBStream.readable, hcl]

theorem notReadable_ops_error (st : SState) (hcl : st.stream.closed = false)
    (hm : st.stream.mode ≠ "r") :
    (∀ size, read st size = .error .unsupportedOp) ∧
    (∀ limit, readline st limit = .error .unsupportedOp) ∧
    (∀ hint, readlines st hint = .error .unsupportedOp) ∧
    iterStream st = .error .unsupportedOp ∧
    iterNext st = .error .unsupportedOp := by
  have hr : st.stream.readable = false := by
    simp [DBStream.readable, hcl, hm]
  refine ⟨fun size => ?_, fun limit => ?_, fun hint => ?_, ?_, ?_⟩ <;>
  simp [read, readline, readlines, iterStream, iterNext, hcl, hr]

theorem notWritable_write_error (st : SState) (hcl : st.stream.closed = false)
    (hm : st.stream.mode ≠ "w") :
    ∀ s, write st s = .error .unsupportedOp := by
  have hw : st.stream.writable = false := by
    simp [DBStream.writable, hcl, hm]
  intro s
  simp [write, hcl, hw]

theorem write_ok (st : SState) (s : String) (hcl : st.stream.closed = false)
    (hm : st.stream.mode = "w") :
    write st s = .ok { st with
      table := insertRecord st.table s st.stream.session_ts
        st.stream.hostname st.stream.pid } := by
  have hw : st.stream.writable = true := by
    simp [DBStream.writable, hm, hcl]
  simp [write, hcl, hw]

theorem read_ok (st : SState) (size : Int) (h : isOpenReader st) :
    read st size
      = .ok (joinContents (consumeUntil size st.stream.row_iterator 0).1,
          afterConsume st size) := by
  have hc := h.1
  have hr := readable_true st h
  simp [read, hc, hr, afterConsume]

theorem readlines_ok (st : SState) (hint : Int) (h : isOpenReader st) :
    readlines st hint
      = .ok ((consumeUntil hint st.stream.row_iterator 0).1.map
            (fun r => r.content),
          afterConsume st hint) := by
  have hc := h.1
  have hr := readable_true st h
  simp [readlines, hc, hr, afterConsume]

theorem readline_ok_cons (st : SState) (limit : Int) (h : isOpenReader st)
    (r : Row) (rest : List Row) (hcur : st.stream.row_iterator = r :: rest) :
    readline st limit
      = .ok ((if 0 ≤ limit then r.content.take limit.toNat else r.content),
          afterOne st r rest) := by
  have hc := h.1
  have hr := readable_true st h
  simp [readline, hc, hr, hcur, afterOne]

theorem iterNext_ok_cons (st : SState) (h : isOpenReader st)
    (r : Row) (rest : List Row) (hcur : st.stream.row_iterator = r :: rest) :
    iterNext st = .ok (some r.content, afterOne st r rest) := by
  have hc := h.1
  have hr := readable_true st h
  simp [iterNext, hc, hr, hcur, afterOne]

theorem stream_eta (st : SState) (hcur : st.stream.row_iterator = []) :
    ({ st.stream with row_iterator := ([] : List Row) } : DBStream)
      = st.stream := by
  rw [← hcur]

theorem afterConsume_exhausted (st : SState)
    (hcur : st.stream.row_iterator = []) (bound : Int) :
    afterConsume st bound = st := by
  have h1 : consumeUntil bound st.stream.row_iterator 0 = ([], []) := by
    rw [hcur]
    exact consumeUntil_nil bound 0
  unfold afterConsume
  simp only [h1, markRows_nil]
  rw [stream_eta st hcur]

theorem read_exhausted (st : SState) (h : isOpenReader st)
    (hcur : st.stream.row_iterator = []) (size : Int) :
    read st size = .ok ("", st) := by
  rw [read_ok st size h, afterConsume_exhausted st hcur size, hcur,
    consumeUntil_nil]
  rfl

theorem readline_exhausted (st : SState) (h : isOpenReader st)
    (hcur : st.stream.row_iterator = []) (limit : Int) :
    readline st limit = .ok ("", st) := by
  have hc := h.1
  have hr := readable_true st h
  simp [readline, hc, hr, hcur]

theorem readlines_exhausted (st : SState) (h : isOpenReader st)
    (hcur : st.stream.row_iterator = []) (hint : Int) :
    readlines st hint = .ok ([], st) := by
  rw [readlines_ok st hint h, afterConsume_exhausted st hcur hint, hcur,
    consumeUntil_nil]
  rfl

theorem iterNext_exhausted (st : SState) (h : isOpenReader st)
    (hcur : st.stream.row_iterator = []) :
    iterNext st = .ok (none, st) := by
  have hc := h.1
  have hr := readable_true st h
  simp [iterNext, hc, hr, hcur]

/-! ### Claims -/

/-- Claim C1: a reader stream opened over a table with distinct record ids
delivers, across any sequence of read, readLine, readLines and iteration
steps, a prefix of the construction-time unconsumed snapshot in strictly
ascending id order (hence no record twice); when the cursor is drained the
whole snapshot has been delivered, and every delivered record is marked
consumed in the table with the reader's frozen session/hostname/pid triple
while keeping its content. -/
theorem C1_reader_drains_snapshot (t : Table) (tname : String) (ts : Nat)
    (host : String) (p : Nat) (ops : List ReadOp)
    (hnd : (t.rows.map Record.id).Nodup) :
    ∃ st2 d, runOps ops (mkStream t tname "r" ts host p) = .ok (st2, d) ∧
      d ++ st2.stream.row_iterator = fetchUnconsumed t ∧
      d.Pairwise (fun a b => a.id < b.id) ∧
      (st2.stream.row_iterator = [] → d = fetchUnconsumed t) ∧
      (∀ r ∈ d, ∃ rec ∈ st2.table.rows,
        rec.id = r.id ∧ rec.content = r.content ∧
        rec.session_ts = some ts ∧ rec.hostname = some host ∧
        rec.pid = some p) := by
  have h0 : isOpenReader (mkStream t tname "r" ts host p) := ⟨rfl, rfl⟩
  obtain ⟨st2, d, he, hcur0, htab0, hm2, hc2, hs2, hh2, hp2⟩ :=
    runOps_spec ops (mkStream t tname "r" ts host p) h0
  have hcur2 : d ++ st2.stream.row_iterator = fetchUnconsumed t := hcur0
  have htab2 : st2.table = markRows t d ts host p := htab0
  have hpre : d <+: fetchUnconsumed t := ⟨st2.stream.row_iterator, hcur2⟩
  refine ⟨st2, d, he, hcur2, ?_, ?_, ?_⟩
  · exact List.Pairwise.sublist hpre.sublist
      (fetchUnconsumed_strict_sorted t hnd)
  · intro hnil
    simpa [hnil] using hcur2
  · intro r hr
    have hrs : r ∈ fetchUnconsumed t := hpre.mem hr
    obtain ⟨rec, hrecmem, hsess, heq⟩ := (mem_fetchUnconsumed t r).mp hrs
    subst heq
    have hid : rec.id ∈ d.map Row.id := by
      have h4 := List.mem_map_of_mem Row.id hr
      simpa using h4
    refine ⟨stampRecord ts host p rec, ?_, rfl, rfl, rfl, rfl, rfl⟩
    rw [htab2]
    exact markRows_mem_stamped t d ts host p rec hrecmem hid

/-- Witness for C1 over a concrete two-record table: readLine, then drain
with read. -/
theorem C1_reader_drains_snapshot_witness :
    (tableAB.rows.map Record.id).Nodup ∧
    (∃ st2 d, runOps [ReadOp.opReadline (-1), ReadOp.opRead (-1)]
        (mkStream tableAB "t" "r" 7 "host" 43) = .ok (st2, d) ∧
      d ++ st2.stream.row_iterator = fetchUnconsumed tableAB ∧
      d.Pairwise (fun a b => a.id < b.id) ∧
      (st2.stream.row_iterator = [] → d = fetchUnconsumed tableAB) ∧
      (∀ r ∈ d, ∃ rec ∈ st2.table.rows,
        rec.id = r.id ∧ rec.content = r.content ∧
        rec.session_ts = some 7 ∧ rec.hostname = some "host" ∧
        rec.pid = some 43)) :=
  ⟨by decide, C1_reader_drains_snapshot tableAB "t" 7 "host" 43
    [ReadOp.opReadline (-1), ReadOp.opRead (-1)] (by decide)⟩

/-- Claim C8: what a reader can deliver is fixed by the construction-time
fetch — across any interleaving of the reader's own read operations with
inserts from other connections, the delivered rows followed by the
remaining iterator are exactly the construction-time snapshot, so rows
inserted after construction are never delivered; and an exhausted open
reader stays exhausted: every further read-style call returns its empty
value and leaves the state unchanged. -/
theorem C8_snapshot_fixed (t : Table) (tname : String) (ts : Nat)
    (host : String) (p : Nat) (es : List Event) :
    (∃ st2 d, runEvents es (mkStream t tname "r" ts host p)
        = .ok (st2, d) ∧
      d ++ st2.stream.row_iterator = fetchUnconsumed t) ∧
    (∀ st : SState, isOpenReader st → st.stream.row_iterator = [] →
      (∀ size, read st size = .ok ("", st)) ∧
      (∀ limit, readline st limit = .ok ("", st)) ∧
      (∀ hint, readlines st hint = .ok ([], st)) ∧
      iterNext st = .ok (none, st)) := by
  constructor
  · obtain ⟨st2, d, he, hcur, hm2, hc2⟩ :=
      runEvents_spec es (mkStream t tname "r" ts host p) ⟨rfl, rfl⟩
    exact ⟨st2, d, he, hcur⟩
  · intro st h hcur
    exact ⟨fun size => read_exhausted st h hcur size,
      fun limit => readline_exhausted st h hcur limit,
      fun hint => readlines_exhausted st h hcur hint,
      iterNext_exhausted st h hcur⟩

/-- Claim C2: read semantics — a negative size drains the whole remaining
cursor and returns the concatenation in order; a nonnegative size consumes
whole records (the result is the concatenation of a prefix of the cursor)
until the accumulated length reaches size, possibly overshooting, with
every shorter nonempty prefix staying strictly below size; an exhausted
cursor yields the empty string and an unchanged state; and read 0 on a
non-empty cursor consumes exactly the first record, returning its whole
content. -/
theorem C2_read_semantics (st : SState) (size : Int) (h : isOpenReader st) :
    (st.stream.row_iterator = [] → read st size = .ok ("", st)) ∧
    (size < 0 →
      read st size
        = .ok (joinContents st.stream.row_iterator, afterConsume st size) ∧
      (afterConsume st size).stream.row_iterator = []) ∧
    (0 ≤ size →
      read st size
        = .ok (joinContents (consumeUntil size st.stream.row_iterator 0).1,
            afterConsume st size) ∧
      (consumeUntil size st.stream.row_iterator 0).1
          ++ (afterConsume st size).stream.row_iterator
        = st.stream.row_iterator ∧
      ((afterConsume st size).stream.row_iterator = [] ∨
        size ≤ (sumLen (consumeUntil size st.stream.row_iterator 0).1 : Int)) ∧
      (∀ q, q <+: (consumeUntil size st.stream.row_iterator 0).1 →
        q ≠ (consumeUntil size st.stream.row_iterator 0).1 → q ≠ [] →
        (sumLen q : Int) < size)) ∧
    (∀ r rest, st.stream.row_iterator = r :: rest →
      read st 0 = .ok (r.content, afterConsume st 0) ∧
      (afterConsume st 0).stream.row_iterator = rest) := by
  refine ⟨fun hcur => read_exhausted st h hcur size, fun hneg => ⟨?_, ?_⟩,
    fun hpos => ⟨read_ok st size h, ?_, ?_, ?_⟩, fun r rest hcur => ?_⟩
  · rw [read_ok st size h]
    simp [consumeUntil_neg size hneg]
  · simp [afterConsume, consumeUntil_neg size hneg]
  · simp only [afterConsume]
    exact consumeUntil_append size st.stream.row_iterator 0
  · rcases (consumeUntil_stop_spec size hpos st.stream.row_iterator 0).1
      with h2 | h2
    · left
      simp only [afterConsume]
      exact h2
    · right
      simpa using h2
  · intro q hq hne hnil
    have h3 := (consumeUntil_stop_spec size hpos st.stream.row_iterator 0).2
      q hq hne hnil
    simpa using h3
  · have hstop : consumeUntil 0 st.stream.row_iterator 0 = ([r], rest) := by
      rw [hcur]
      exact consumeUntil_cons_stop 0 r rest 0 ⟨le_refl 0, Int.natCast_nonneg _⟩
    constructor
    · rw [read_ok st 0 h, hstop]
      simp [joinContents, String.join]
    · simp [afterConsume, hstop]

/-- Witness for C2 at a concrete open reader holding one record, with
size 0. -/
theorem C2_read_semantics_witness :
    isOpenReader readerHW ∧
    ((readerHW.stream.row_iterator = [] →
        read readerHW 0 = .ok ("", readerHW)) ∧
     ((0 : Int) < 0 →
       read readerHW 0
         = .ok (joinContents readerHW.stream.row_iterator,
             afterConsume readerHW 0) ∧
       (afterConsume readerHW 0).stream.row_iterator = []) ∧
     ((0 : Int) ≤ 0 →
       read readerHW 0
         = .ok (joinContents
               (consumeUntil 0 readerHW.stream.row_iterator 0).1,
             afterConsume readerHW 0) ∧
       (consumeUntil 0 readerHW.stream.row_iterator 0).1
           ++ (afterConsume readerHW 0).stream.row_iterator
         = readerHW.stream.row_iterator ∧
       ((afterConsume readerHW 0).stream.row_iterator = [] ∨
         (0 : Int) ≤ (sumLen
           (consumeUntil 0 readerHW.stream.row_iterator 0).1 : Int)) ∧
       (∀ q, q <+: (consumeUntil 0 readerHW.stream.row_iterator 0).1 →
         q ≠ (consumeUntil 0 readerHW.stream.row_iterator 0).1 → q ≠ [] →
         (sumLen q : Int) < 0)) ∧
     (∀ r rest, readerHW.stream.row_iterator = r :: rest →
       read readerHW 0 = .ok (r.content, afterConsume readerHW 0) ∧
       (afterConsume readerHW 0).stream.row_iterator = rest)) :=
  ⟨⟨rfl, rfl⟩, C2_read_semantics readerHW 0 ⟨rfl, rfl⟩⟩

/-- Claim C3: readLine consumes exactly one record (none, returning the
empty string, when exhausted); a nonnegative limit truncates only the
returned view to the first limit characters while the whole record is
marked consumed and the stored id/content pairs of the table are unchanged;
a negative limit returns the full content. -/
theorem C3_readline_semantics (st : SState) (limit : Int)
    (h : isOpenReader st) :
    (st.stream.row_iterator = [] → readline st limit = .ok ("", st)) ∧
    (∀ r rest, st.stream.row_iterator = r :: rest →
      readline st limit
        = .ok ((if 0 ≤ limit then r.content.take limit.toNat
            else r.content), afterOne st r rest) ∧
      (afterOne st r rest).stream.row_iterator = rest ∧
      (afterOne st r rest).table.rows.map (fun rec => (rec.id, rec.content))
        = st.table.rows.map (fun rec => (rec.id, rec.content)) ∧
      (∀ rec ∈ st.table.rows, rec.id = r.id →
        stampRecord st.stream.session_ts st.stream.hostname st.stream.pid
          rec ∈ (afterOne st r rest).table.rows)) := by
  refine ⟨fun hcur => readline_exhausted st h hcur limit,
    fun r rest hcur =>
      ⟨readline_ok_cons st limit h r rest hcur, rfl, ?_, ?_⟩⟩
  · exact markRows_idContent st.table [r] st.stream.session_ts
      st.stream.hostname st.stream.pid
  · intro rec hrec hid
    have hmem : rec.id ∈ ([r].map Row.id) := by
      simp [hid]
    exact markRows_mem_stamped st.table [r] st.stream.session_ts
      st.stream.hostname st.stream.pid rec hrec hmem

/-- Witness for C3: Scenario E — readLine with limit 5 on a stream whose
next record is Hello World. -/
theorem C3_readline_semantics_witness :
    isOpenReader readerHW ∧
    ((readerHW.stream.row_iterator = [] →
        readline readerHW 5 = .ok ("", readerHW)) ∧
     (∀ r rest, readerHW.stream.row_iterator = r :: rest →
       readline readerHW 5
         = .ok ((if (0 : Int) ≤ 5 then r.content.take (5 : Int).toNat
             else r.content), afterOne readerHW r rest) ∧
       (afterOne readerHW r rest).stream.row_iterator = rest ∧
       (afterOne readerHW r rest).table.rows.map
           (fun rec => (rec.id, rec.content))
         = readerHW.table.rows.map (fun rec => (rec.id, rec.content)) ∧
       (∀ rec ∈ readerHW.table.rows, rec.id = r.id →
         stampRecord readerHW.stream.session_ts readerHW.stream.hostname
           readerHW.stream.pid rec
           ∈ (afterOne readerHW r rest).table.rows))) :=
  ⟨⟨rfl, rfl⟩, C3_readline_semantics readerHW 5 ⟨rfl, rfl⟩⟩

/-- Claim C4 is false as stated: obtaining the iterator on a stream after
close() raises UnsupportedOperationError, not ClosedStreamError, because
iteration performs only the readable() check. -/
theorem C4_iter_on_closed_counterexample :
    iterStream closedReader = .error .unsupportedOp ∧
    iterStream closedReader ≠ .error .closedStream := by
  have h : iterStream closedReader = .error .unsupportedOp := rfl
  refine ⟨h, ?_⟩
  rw [h]
  intro hcon
  simp at hcon

/-- Claim C4 (amended): on a stream after close(), write, flush, read,
readLine, readLines and advancing the iterator all raise ClosedStreamError;
obtaining the iterator instead raises UnsupportedOperationError since
iteration performs only the readable() check. -/
theorem C4_closed_operations (st : SState) (hcl : st.stream.closed = true) :
    (∀ s, write st s = .error .closedStream) ∧
    flush st = .error .closedStream ∧
    (∀ size, read st size = .error .closedStream) ∧
    (∀ limit, readline st limit = .error .closedStream) ∧
    (∀ hint, readlines st hint = .error .closedStream) ∧
    iterNext st = .error .closedStream ∧
    iterStream st = .error .unsupportedOp :=
  closed_ops_error st hcl

/-- Witness for the amended C4 at a concrete closed reader stream. -/
theorem C4_closed_operations_witness :
    closedReader.stream.closed = true ∧
    ((∀ s, write closedReader s = .error .closedStream) ∧
     flush closedReader = .error .closedStream ∧
     (∀ size, read closedReader size = .error .closedStream) ∧
     (∀ limit, readline closedReader limit = .error .closedStream) ∧
     (∀ hint, readlines closedReader hint = .error .closedStream) ∧
     iterNext closedReader = .error .closedStream ∧
     iterStream closedReader = .error .unsupportedOp) :=
  ⟨by decide, C4_closed_operations closedReader (by decide)⟩

/-- Claim C5: on an open stream, write in read mode raises
UnsupportedOperationError, and every read-style operation in write mode
raises UnsupportedOperationError. -/
theorem C5_mode_mismatch (st : SState) (hcl : st.stream.closed = false) :
    (st.stream.mode = "r" → ∀ s, write st s = .error .unsupportedOp) ∧
    (st.stream.mode = "w" →
      (∀ size, read st size = .error .unsupportedOp) ∧
      (∀ limit, readline st limit = .error .unsupportedOp) ∧
      (∀ hint, readlines st hint = .error .unsupportedOp) ∧
      iterStream st = .error .unsupportedOp ∧
      iterNext st = .error .unsupportedOp) := by
  constructor
  · intro hm
    exact notWritable_write_error st hcl (by rw [hm]; decide)
  · intro hm
    exact notReadable_ops_error st hcl (by rw [hm]; decide)

/-- Witness for C5 at a concrete open writer stream. -/
theorem C5_mode_mismatch_witness :
    writerEmpty.stream.closed = false ∧
    ((writerEmpty.stream.mode = "r" →
        ∀ s, write writerEmpty s = .error .unsupportedOp) ∧
     (writerEmpty.stream.mode = "w" →
       (∀ size, read writerEmpty size = .error .unsupportedOp) ∧
       (∀ limit, readline writerEmpty limit = .error .unsupportedOp) ∧
       (∀ hint, readlines writerEmpty hint = .error .unsupportedOp) ∧
       iterStream writerEmpty = .error .unsupportedOp ∧
       iterNext writerEmpty = .error .unsupportedOp)) :=
  ⟨by decide, C5_mode_mismatch writerEmpty (by decide)⟩

/-- Claim C6: each write performs exactly one insertion of the whole
argument string stamped with the writer's frozen triple, and two
consecutive writes append two such records in insertion order with
increasing ids. -/
theorem C6_write_semantics (st : SState) (s1 s2 : String)
    (hcl : st.stream.closed = false) (hm : st.stream.mode = "w") :
    ∃ st1 st2, write st s1 = .ok st1 ∧ write st1 s2 = .ok st2 ∧
      st1.stream = st.stream ∧
      st1.table.rows = st.table.rows ++
        [⟨st.table.nextId, s1, some st.stream.session_ts,
          some st.stream.hostname, some st.stream.pid⟩] ∧
      st1.table.nextId = st.table.nextId + 1 ∧
      st2.stream = st.stream ∧
      st2.table.rows = st.table.rows ++
        [⟨st.table.nextId, s1, some st.stream.session_ts,
          some st.stream.hostname, some st.stream.pid⟩,
         ⟨st.table.nextId + 1, s2, some st.stream.session_ts,
          some st.stream.hostname, some st.stream.pid⟩] ∧
      st2.table.nextId = st.table.nextId + 2 := by
  refine ⟨_, _, write_ok st s1 hcl hm, write_ok _ s2 hcl hm,
    rfl, rfl, rfl, rfl, ?_, rfl⟩
  simp [insertRecord]

/-- Witness for C6: Scenario B's two writes on a fresh writer stream. -/
theorem C6_write_semantics_witness :
    writerEmpty.stream.closed = false ∧ writerEmpty.stream.mode = "w" ∧
    (∃ st1 st2, write writerEmpty "Line1 stdout\n" = .ok st1 ∧
      write st1 "Line2 stdout\n" = .ok st2 ∧
      st1.stream = writerEmpty.stream ∧
      st1.table.rows = writerEmpty.table.rows ++
        [⟨writerEmpty.table.nextId, "Line1 stdout\n",
          some writerEmpty.stream.session_ts,
          some writerEmpty.stream.hostname, some writerEmpty.stream.pid⟩] ∧
      st1.table.nextId = writerEmpty.table.nextId + 1 ∧
      st2.stream = writerEmpty.stream ∧
      st2.table.rows = writerEmpty.table.rows ++
        [⟨writerEmpty.table.nextId, "Line1 stdout\n",
          some writerEmpty.stream.session_ts,
          some writerEmpty.stream.hostname, some writerEmpty.stream.pid⟩,
         ⟨writerEmpty.table.nextId + 1, "Line2 stdout\n",
          some writerEmpty.stream.session_ts,
          some writerEmpty.stream.hostname, some writerEmpty.stream.pid⟩] ∧
      st2.table.nextId = writerEmpty.table.nextId + 2) :=
  ⟨by decide, by decide,
    C6_write_semantics writerEmpty "Line1 stdout\n" "Line2 stdout\n"
      (by decide) (by decide)⟩

/-- Claim C7: close is idempotent — a second close changes nothing and the
state after two closes equals the state after one; the first close sets the
Closed flag and then invokes the adapter release hook. -/
theorem C7_close_idempotent (st : SState) :
    close (close st) = close st ∧
    (close st).stream.closed = true ∧
    (st.stream.closed = true → close st = st) ∧
    (st.stream.closed = false →
      close st = { st with stream := dbClose (setClosed st.stream) } ∧
      (setClosed st.stream).closed = true) := by
  have hcl : (close st).stream.closed = true := by
    by_cases h : st.stream.closed = true
    · simp [close, h]
    · simp [close, h, dbClose, setClosed]
  refine ⟨?_, hcl, fun h => by simp [close, h],
    fun h => ⟨by simp [close, h], rfl⟩⟩
  by_cases h : st.stream.closed = true
  · simp [close, h]
  · simp [close, h, dbClose, setClosed]

/-- Claim C9: construction with any mode other than r and w succeeds, is
open, performs no unconsumed-row fetch (the stream state does not depend on
the table at all), and every mode-checked operation raises
UnsupportedOperationError rather than ClosedStreamError. -/
theorem C9_invalid_mode (t : Table) (tname mode : String) (ts : Nat)
    (host : String) (p : Nat) (hr : mode ≠ "r") (hw : mode ≠ "w") :
    (mkStream t tname mode ts host p).stream.closed = false ∧
    (mkStream t tname mode ts host p).stream.row_iterator = [] ∧
    (mkStream t tname mode ts host p).stream
      = (mkStream { rows := [], nextId := 0 } tname mode ts host p).stream ∧
    (mkStream t tname mode ts host p).stream.readable = false ∧
    (mkStream t tname mode ts host p).stream.writable = false ∧
    (∀ s, write (mkStream t tname mode ts host p) s
      = .error .unsupportedOp) ∧
    (∀ size, read (mkStream t tname mode ts host p) size
      = .error .unsupportedOp) ∧
    (∀ limit, readline (mkStream t tname mode ts host p) limit
      = .error .unsupportedOp) ∧
    (∀ hint, readlines (mkStream t tname mode ts host p) hint
      = .error .unsupportedOp) ∧
    iterStream (mkStream t tname mode ts host p) = .error .unsupportedOp ∧
    iterNext (mkStream t tname mode ts host p) = .error .unsupportedOp := by
  have hbase : mkStream t tname mode ts host p
      = ⟨⟨tname, mode, ts, host, p, false, true, []⟩, t⟩ := by
    simp [mkStream, DBStream.readable, hr]
  rw [hbase]
  refine ⟨rfl, rfl, ?_, ?_, ?_, notWritable_write_error _ rfl hw,
    (notReadable_ops_error _ rfl hr).1, (notReadable_ops_error _ rfl hr).2.1,
    (notReadable_ops_error _ rfl hr).2.2.1,
    (notReadable_ops_error _ rfl hr).2.2.2.1,
    (notReadable_ops_error _ rfl hr).2.2.2.2⟩
  · simp [mkStream, DBStream.readable, hr]
  · simp [DBStream.readable, hr]
  · simp [DBStream.writable, hw]

/-- Witness for C9 with the unvalidated mode string x. -/
theorem C9_invalid_mode_witness :
    ("x" : String) ≠ "r" ∧ ("x" : String) ≠ "w" ∧
    ((mkStream tableAB "t" "x" 3 "hx" 50).stream.closed = false ∧
     (mkStream tableAB "t" "x" 3 "hx" 50).stream.row_iterator = [] ∧
     (mkStream tableAB "t" "x" 3 "hx" 50).stream
       = (mkStream { rows := [], nextId := 0 } "t" "x" 3 "hx" 50).stream ∧
     (mkStream tableAB "t" "x" 3 "hx" 50).stream.readable = false ∧
     (mkStream tableAB "t" "x" 3 "hx" 50).stream.writable = false ∧
     (∀ s, write (mkStream tableAB "t" "x" 3 "hx" 50) s
       = .error .unsupportedOp) ∧
     (∀ size, read (mkStream tableAB "t" "x" 3 "hx" 50) size
       = .error .unsupportedOp) ∧
     (∀ limit, readline (mkStream tableAB "t" "x" 3 "hx" 50) limit
       = .error .unsupportedOp) ∧
     (∀ hint, readlines (mkStream tableAB "t" "x" 3 "hx" 50) hint
       = .error .unsupportedOp) ∧
     iterStream (mkStream tableAB "t" "x" 3 "hx" 50)
       = .error .unsupportedOp ∧
     iterNext (mkStream tableAB "t" "x" 3 "hx" 50)
       = .error .unsupportedOp) :=
  ⟨by decide, by decide,
    C9_invalid_mode tableAB "t" "x" 3 "hx" 50 (by decide) (by decide)⟩

/-- Claim C10: closedness is monotone — once the flag is set every
operation fails and close is the identity, so nothing resets it; close sets
the flag before invoking the release hook, and any further close is a
no-op. -/
theorem C10_closed_monotone (st : SState) :
    (st.stream.closed = true →
      (∀ s, write st s = .error .closedStream) ∧
      flush st = .error .closedStream ∧
      (∀ size, read st size = .error .closedStream) ∧
      (∀ limit, readline st limit = .error .closedStream) ∧
      (∀ hint, readlines st hint = .error .closedStream) ∧
      iterNext st = .error .closedStream ∧
      iterStream st = .error .unsupportedOp ∧
      close st = st) ∧
    (close st).stream.closed = true ∧
    (setClosed st.stream).closed = true ∧
    (st.stream.closed = false →
      close st = { st with stream := dbClose (setClosed st.stream) }) := by
  refine ⟨fun h => ?_, ?_, rfl, fun h => by simp [close, h]⟩
  · obtain ⟨h1, h2, h3, h4, h5, h6, h7⟩ := closed_ops_error st h
    exact ⟨h1, h2, h3, h4, h5, h6, h7, by simp [close, h]⟩
  · by_cases h : st.stream.closed = true
    · simp [close, h]
    · simp [close, h, dbClose, setClosed]

end DBS
